import Mathlib

/-!
Verification of the FastAPI CRUD tutorial backend (users, posts, votes).

The database state (tables `users`, `posts`, `votes` of `app/models.py`) is
embedded as lists of records; each protected endpoint of `app/routers/` is
embedded as a pure function from the state (plus the authenticated caller's
id and the request payload) to either an `HTTPException` or a result paired
with the updated state.  SQLAlchemy query fragments are translated to their
SQL semantics over those lists: `filter ... first()` is `List.find?`,
`filter ... delete()` removes every matching row, `order_by` is a sort,
`limit`/`offset` are `take`/`drop`, and the left-join vote aggregate of
`get_posts` is a per-post count over the `votes` table.  The jose JWT
library used by `app/oauth2.py` is modelled by its documented semantics: a
token is either a payload signed by a key or malformed, and decoding checks
the key and the `exp` claim (instants are abstract naturals, measured in
minutes to match `ACCESS_TOKEN_EXPIRE_MINUTES`).
-/

namespace App

/-- A row of the `users` table (`app/models.py`, class `User`).  Timestamps
are abstract naturals. -/
structure User where
  id : Nat
  email : String
  password : String
  created_at : Nat
deriving DecidableEq, Repr

/-- A row of the `posts` table (`app/models.py`, class `Post`). -/
structure Post where
  id : Nat
  title : String
  content : String
  published : Bool
  created_at : Nat
  owner_id : Nat
deriving DecidableEq, Repr

/-- A row of the `votes` table (`app/models.py`, class `Vote`): a composite
key (user_id, post_id) and no payload. -/
structure Vote where
  user_id : Nat
  post_id : Nat
deriving DecidableEq, Repr

/-- The database state: the three tables. -/
structure DB where
  users : List User
  posts : List Post
  votes : List Vote
deriving DecidableEq, Repr

/-- A FastAPI `HTTPException`: status code and detail message. -/
structure HTTPException where
  status_code : Nat
  detail : String
deriving DecidableEq, Repr

/-- The request body of the vote endpoint (`app/schemas.py`, class `Vote`;
named `VoteIn` here because the table row already uses the name). -/
structure VoteIn where
  post_id : Nat
  dir : Nat
deriving DecidableEq, Repr

/-- The public user representation (`app/schemas.py`, class `UserOut`):
id, email and creation timestamp only — no password field. -/
structure UserOut where
  id : Nat
  email : String
  created_at : Nat
deriving DecidableEq, Repr

/-- Serialisation of a user row through the `UserOut` response model. -/
def userOut (u : User) : UserOut :=
  { id := u.id, email := u.email, created_at := u.created_at }

/-- Literal substring containment: whether `needle` occurs as a contiguous
run inside `hay`.  This is the naive reading of the title filter; the
program's actual filter is the SQL `LIKE` matcher below, which coincides
with this exactly when the search holds no `LIKE` wildcard. -/
def containsRun (needle : List Char) : List Char → Bool
  | [] => needle.isEmpty
  | c :: rest => needle.isPrefixOf (c :: rest) || containsRun needle rest

/-- SQL `LIKE` pattern matching: in the pattern, `%` matches any run of
characters, `_` matches any single character, every other character matches
itself.  Structural on the pattern; the `%` case tries every suffix of the
text. -/
def likeMatch : List Char → List Char → Bool
  | [], text => text.isEmpty
  | c :: ps, text =>
      if c == '%' then text.tails.any (fun suf => likeMatch ps suf)
      else
        match text with
        | [] => false
        | d :: ts => (if c == '_' then true else c == d) && likeMatch ps ts

/-- `Post.title.contains(search)` of `app/routers/post.py` line 51:
SQLAlchemy generates `title LIKE '%' || search || '%'` with no autoescape,
so `%` and `_` inside the search act as `LIKE` wildcards. -/
def titleContains (title search : String) : Bool :=
  likeMatch ('%' :: (search.data ++ ['%'])) title.data

/-- `func.count(models.Vote.post_id)` of the left-join aggregate: the number
of vote rows referencing post `pid`. -/
def voteCount (votes : List Vote) (pid : Nat) : Nat :=
  (votes.filter (fun v => v.post_id == pid)).length

/-- The `ORDER BY posts.id` comparison. -/
def postLe (a b : Post) : Prop :=
  a.id ≤ b.id

instance : DecidableRel postLe :=
  fun a b => inferInstanceAs (Decidable (a.id ≤ b.id))

instance : IsTotal Post postLe :=
  ⟨fun a b => Nat.le_total a.id b.id⟩

instance : IsTrans Post postLe :=
  ⟨fun _ _ _ h1 h2 => Nat.le_trans h1 h2⟩

/-- `order_by(models.Post.id)`: sort the rows by ascending id. -/
def sortById (l : List Post) : List Post :=
  List.insertionSort postLe l

/-- `GET /posts` (`app/routers/post.py`, `get_posts`): filter the posts whose
title contains `search`, order by ascending id, apply `OFFSET skip` then
`LIMIT limit`, and pair each post with its vote count. -/
def get_posts (db : DB) (limit skip : Nat) (search : String) : List (Post × Nat) :=
  ((((db.posts.filter (fun p => titleContains p.title search)).insertionSort postLe).drop
      skip).take limit).map (fun p => (p, voteCount db.votes p.id))

/-- `get_posts` at the declared query-parameter defaults
`limit: int = 10, skip: int = 0, search: Optional[str] = ""`. -/
def get_posts_default (db : DB) : List (Post × Nat) :=
  get_posts db 10 0 ""

/-- `GET /posts/{id}` (`app/routers/post.py`, `get_post`): the single-post
variant of the join query, 404 when no row matches. -/
def get_post (db : DB) (id : Nat) : Except HTTPException (Post × Nat) :=
  match db.posts.find? (fun p => p.id == id) with
  | none =>
      .error { status_code := 404,
               detail := "Post with " ++ toString id ++ " was not found" }
  | some p => .ok (p, voteCount db.votes p.id)

/-- The serial primary key the store assigns to a fresh row: one more than
the largest id in the table. -/
def nextId (ids : List Nat) : Nat :=
  ids.foldr max 0 + 1

/-- `POST /posts` (`app/routers/post.py`, `create_post`): insert a new post
owned by the caller and return it. -/
def create_post (db : DB) (uid : Nat) (title content : String) (published : Bool)
    (now : Nat) : DB × Post :=
  let p : Post :=
    { id := nextId (db.posts.map Post.id), title := title, content := content,
      published := published, created_at := now, owner_id := uid }
  ({ db with posts := db.posts ++ [p] }, p)

/-- `DELETE /posts/{id}` (`app/routers/post.py`, `delete_post`): 404 when the
post is absent, 403 when the caller is not the owner, otherwise remove the
post (the store cascades the votes referencing it, `ondelete="CASCADE"` of
`app/models.py`) and answer 204 No Content. -/
def delete_post (db : DB) (uid : Nat) (id : Nat) : Except HTTPException (DB × Nat) :=
  match db.posts.find? (fun p => p.id == id) with
  | none =>
      .error { status_code := 404,
               detail := "Post with " ++ toString id ++ " was not found" }
  | some post =>
      if post.owner_id != uid then
        .error { status_code := 403, detail := "You are not the owner of the post" }
      else
        .ok ({ db with posts := db.posts.filter (fun p => !(p.id == id)),
                       votes := db.votes.filter (fun v => !(v.post_id == id)) }, 204)

/-- The row update performed by `post_query.update(updated_post.model_dump())`:
replace exactly the three `PostCreate` fields. -/
def applyUpdate (title content : String) (published : Bool) (p : Post) : Post :=
  { p with title := title, content := content, published := published }

/-- `PUT /posts/{id}` (`app/routers/post.py`, `update_post`): 404 when the
post is absent, 403 when the caller is not the owner, otherwise update every
row matching the id filter and return `post_query.first()` on the updated
state. -/
def update_post (db : DB) (uid : Nat) (id : Nat) (title content : String)
    (published : Bool) : Except HTTPException (DB × Option Post) :=
  match db.posts.find? (fun p => p.id == id) with
  | none =>
      .error { status_code := 404,
               detail := "Post with " ++ toString id ++ " was not found" }
  | some post =>
      if post.owner_id != uid then
        .error { status_code := 403, detail := "You are not the owner of the post" }
      else
        let posts' := db.posts.map
          (fun p => if p.id == id then applyUpdate title content published p else p)
        .ok ({ db with posts := posts' }, posts'.find? (fun p => p.id == id))

/-- `POST /votes` (`app/routers/vote.py`, `vote`): cast (`dir = 1`) or
retract (any other validated value, i.e. `dir = 0`) the caller's vote on a
post. -/
def vote (db : DB) (uid : Nat) (v : VoteIn) : Except HTTPException (DB × String) :=
  if (db.posts.find? (fun p => p.id == v.post_id)).isNone then
    .error { status_code := 404,
             detail := "Post with id " ++ toString v.post_id ++ " does not exist" }
  else
    let found_vote := db.votes.find?
      (fun w => w.post_id == v.post_id && w.user_id == uid)
    if v.dir == 1 then
      if found_vote.isSome then
        .error { status_code := 409,
                 detail := "user " ++ toString uid ++ " has already voted on post "
                   ++ toString v.post_id }
      else
        .ok ({ db with votes := db.votes ++ [{ user_id := uid, post_id := v.post_id }] },
             "successfully added vote")
    else
      if found_vote.isNone then
        .error { status_code := 404, detail := "vote does not exist" }
      else
        .ok ({ db with votes :=
                 db.votes.filter (fun w => !(w.post_id == v.post_id && w.user_id == uid)) },
             "successfully deleted vote")

/-- `POST /users` (`app/routers/user.py`, `create_user`): store the user with
the hashed password and return the `UserOut` projection.  The bcrypt hash of
`app/utils.py` is an external library call, abstracted as an arbitrary
function from plaintext to digest. -/
def create_user (hash : String → String) (db : DB) (email password : String)
    (now : Nat) : DB × UserOut :=
  let u : User :=
    { id := nextId (db.users.map User.id), email := email,
      password := hash password, created_at := now }
  ({ db with users := db.users ++ [u] }, userOut u)

/-- `GET /users/{id}` (`app/routers/user.py`, `get_user`): 404 when absent,
otherwise the `UserOut` projection of the row. -/
def get_user (db : DB) (id : Nat) : Except HTTPException UserOut :=
  match db.users.find? (fun u => u.id == id) with
  | none =>
      .error { status_code := 404,
               detail := "User with " ++ toString id ++ " was not found" }
  | some u => .ok (userOut u)

/-- A token as the jose library sees it: either a payload (the optional
`user_id` claim and the `exp` claim) signed by a key, or a malformed string. -/
inductive JWT where
  | signed (user_id : Option Nat) (exp : Nat) (key : String)
  | malformed (raw : String)
deriving DecidableEq, Repr

/-- `jwt.encode(payload, key, algorithm)`. -/
def jwtEncode (key : String) (user_id : Option Nat) (exp : Nat) : JWT :=
  JWT.signed user_id exp key

/-- `jwt.decode(token, key, algorithms)` at instant `now`, by the library's
documented semantics: fails (raises `JWTError`) on a malformed token, on a
signature made with a different key, and on an expired `exp` claim
(jose raises `ExpiredSignatureError` when `exp < now`, with zero leeway). -/
def jwtDecode (token : JWT) (key : String) (now : Nat) : Option (Option Nat × Nat) :=
  match token with
  | JWT.malformed _ => none
  | JWT.signed uid exp k =>
      if k == key then
        if exp < now then none else some (uid, exp)
      else none

/-- The `TokenData` schema of `app/schemas.py`. -/
structure TokenData where
  id : Option Nat
deriving DecidableEq, Repr

/-- `create_access_token` (`app/oauth2.py`): sign the `user_id` claim with
the configured secret key and `exp = now + ACCESS_TOKEN_EXPIRE_MINUTES`. -/
def create_access_token (secretKey : String) (ttlMinutes : Nat) (user_id : Nat)
    (now : Nat) : JWT :=
  jwtEncode secretKey (some user_id) (now + ttlMinutes)

/-- `verify_access_token` (`app/oauth2.py`): decode the token, require the
`user_id` claim, and raise the caller-supplied credentials exception on any
failure. -/
def verify_access_token (secretKey : String) (token : JWT)
    (credentials_exception : HTTPException) (now : Nat) :
    Except HTTPException TokenData :=
  match jwtDecode token secretKey now with
  | none => .error credentials_exception
  | some (uid, _) =>
      match uid with
      | none => .error credentials_exception
      | some i => .ok { id := some i }

/-- The one credentials exception `get_current_user` builds and passes down
(`app/oauth2.py` lines 104-108). -/
def credentialsException : HTTPException :=
  { status_code := 401, detail := "Could not validate credentials" }

/-- `get_current_user` (`app/oauth2.py`): verify the token, then look the
subject id up in the `users` table; a missing user raises the very same
credentials exception as a failed verification. -/
def get_current_user (secretKey : String) (db : DB) (token : JWT) (now : Nat) :
    Except HTTPException User :=
  match verify_access_token secretKey token credentialsException now with
  | .error e => .error e
  | .ok td =>
      match db.users.find? (fun u => some u.id == td.id) with
      | none => .error credentialsException
      | some u => .ok u

/-- `db.posts` has a row with id `pid`. -/
def postExists (db : DB) (pid : Nat) : Bool :=
  db.posts.any (fun p => p.id == pid)

/-- `db.votes` has the row (uid, pid). -/
def voteExists (db : DB) (uid pid : Nat) : Bool :=
  db.votes.any (fun w => w.post_id == pid && w.user_id == uid)

/-- The composite-primary-key invariant of the `votes` table: no two rows
share the (user_id, post_id) pair. -/
def voteKeyUnique (votes : List Vote) : Prop :=
  votes.Pairwise (fun a b => ¬(a.user_id = b.user_id ∧ a.post_id = b.post_id))

/-- The foreign-key constraint of `votes.post_id`: every vote references an
existing post. -/
def votesFK (db : DB) : Prop :=
  ∀ v ∈ db.votes, v.post_id ∈ db.posts.map Post.id

/-- The state `db` with the stored password digest of user `uid` replaced by
`pw` and nothing else changed. -/
def setPassword (db : DB) (uid : Nat) (pw : String) : DB :=
  { db with users :=
      db.users.map (fun u => if u.id == uid then { u with password := pw } else u) }

/-- The state `db` with the published flag of post `pid` set to `b` and
nothing else changed. -/
def setPublished (db : DB) (pid : Nat) (b : Bool) : DB :=
  { db with posts :=
      db.posts.map (fun p => if p.id == pid then { p with published := b } else p) }

/-- A post with its published flag erased: what remains of the row once the
flag is ignored. -/
structure PostView where
  id : Nat
  title : String
  content : String
  created_at : Nat
  owner_id : Nat
deriving DecidableEq, Repr

/-- Erase the published flag of a post. -/
def eraseFlag (p : Post) : PostView :=
  { id := p.id, title := p.title, content := p.content,
    created_at := p.created_at, owner_id := p.owner_id }

end App

namespace App

/-! ### Bridging lemmas between the existence predicates and `find?` -/

theorem postExists_eq_isSome (db : DB) (pid : Nat) :
    postExists db pid = (db.posts.find? (fun p => p.id == pid)).isSome := by
  rw [Bool.eq_iff_iff]
  simp [postExists, List.any_eq_true, List.find?_isSome]

theorem voteExists_eq_isSome (db : DB) (uid pid : Nat) :
    voteExists db uid pid =
      (db.votes.find? (fun w => w.post_id == pid && w.user_id == uid)).isSome := by
  rw [Bool.eq_iff_iff]
  simp [voteExists, List.any_eq_true, List.find?_isSome]

theorem isSome_false_eq_none {α : Type} {o : Option α} (h : o.isSome = false) :
    o = none := by
  cases o with
  | none => rfl
  | some x => simp at h

/-- Claim C1: for every caller and every validated vote request (postId, dir)
with dir in 0..1: a missing post fails 404 NotFound; dir = 1 on an existing
vote fails 409 Conflict; dir = 1 with no existing vote inserts exactly the
row (caller, postId) and reports success; dir = 0 with no existing vote
fails 404 NotFound; dir = 0 on an existing vote deletes exactly the rows
with that key, leaves the other tables unchanged, and reports success.  An
error result carries no new state, so the vote table is unchanged on every
failure. -/
theorem vote_spec (db : DB) (uid pid dir : Nat) :
    (postExists db pid = false →
        vote db uid ⟨pid, dir⟩ =
          .error ⟨404, "Post with id " ++ toString pid ++ " does not exist"⟩) ∧
    (postExists db pid = true → dir = 1 → voteExists db uid pid = true →
        vote db uid ⟨pid, dir⟩ =
          .error ⟨409, "user " ++ toString uid ++ " has already voted on post "
            ++ toString pid⟩) ∧
    (postExists db pid = true → dir = 1 → voteExists db uid pid = false →
        vote db uid ⟨pid, dir⟩ =
          .ok ({ db with votes := db.votes ++ [⟨uid, pid⟩] },
            "successfully added vote")) ∧
    (postExists db pid = true → dir = 0 → voteExists db uid pid = false →
        vote db uid ⟨pid, dir⟩ = .error ⟨404, "vote does not exist"⟩) ∧
    (postExists db pid = true → dir = 0 → voteExists db uid pid = true →
        ∃ db', vote db uid ⟨pid, dir⟩ = .ok (db', "successfully deleted vote") ∧
          db'.users = db.users ∧ db'.posts = db.posts ∧
          ∀ w : Vote, w ∈ db'.votes ↔
            w ∈ db.votes ∧ ¬(w.user_id = uid ∧ w.post_id = pid)) := by
  refine ⟨?_, ?_, ?_, ?_, ?_⟩
  · intro h
    rw [postExists_eq_isSome] at h
    simp [vote, isSome_false_eq_none h]
  · intro hp hdir hv
    rw [postExists_eq_isSome] at hp
    rw [voteExists_eq_isSome] at hv
    subst hdir
    obtain ⟨post, hP⟩ := Option.isSome_iff_exists.mp hp
    obtain ⟨w, hV⟩ := Option.isSome_iff_exists.mp hv
    simp [vote, hP, hV]
  · intro hp hdir hv
    rw [postExists_eq_isSome] at hp
    rw [voteExists_eq_isSome] at hv
    subst hdir
    obtain ⟨post, hP⟩ := Option.isSome_iff_exists.mp hp
    simp [vote, hP, isSome_false_eq_none hv]
  · intro hp hdir hv
    rw [postExists_eq_isSome] at hp
    rw [voteExists_eq_isSome] at hv
    subst hdir
    obtain ⟨post, hP⟩ := Option.isSome_iff_exists.mp hp
    simp [vote, hP, isSome_false_eq_none hv]
  · intro hp hdir hv
    rw [postExists_eq_isSome] at hp
    rw [voteExists_eq_isSome] at hv
    subst hdir
    obtain ⟨post, hP⟩ := Option.isSome_iff_exists.mp hp
    obtain ⟨w0, hV⟩ := Option.isSome_iff_exists.mp hv
    refine ⟨{ db with votes :=
        db.votes.filter (fun w => !(w.post_id == pid && w.user_id == uid)) },
      ?_, rfl, rfl, ?_⟩
    · simp [vote, hP, hV]
    · intro w
      constructor
      · intro hw
        refine ⟨(List.mem_filter.mp hw).1, ?_⟩
        intro hc
        have h2 := (List.mem_filter.mp hw).2
        simp [hc.1, hc.2] at h2
      · rintro ⟨hw, hc⟩
        refine List.mem_filter.mpr ⟨hw, ?_⟩
        by_cases h1 : w.post_id = pid
        · by_cases h2 : w.user_id = uid
          · exact absurd ⟨h2, h1⟩ hc
          · simp [h2]
        · simp [h1]

/-- Claim C2: for every post id, caller and update/delete request: a missing
post fails 404 NotFound for both operations; an existing post whose owner
differs from the caller fails 403 Forbidden for both operations, whatever
the payload; when the caller is the owner, update replaces exactly the
title, content and published fields of every row matching the id and
returns the updated row, and delete removes the post and answers
204 No Content. -/
theorem post_mutation_auth_spec (db : DB) (uid id : Nat) (title content : String)
    (published : Bool) :
    (db.posts.find? (fun p => p.id == id) = none →
        update_post db uid id title content published =
          .error ⟨404, "Post with " ++ toString id ++ " was not found"⟩ ∧
        delete_post db uid id =
          .error ⟨404, "Post with " ++ toString id ++ " was not found"⟩) ∧
    (∀ post, db.posts.find? (fun p => p.id == id) = some post → post.owner_id ≠ uid →
        update_post db uid id title content published =
          .error ⟨403, "You are not the owner of the post"⟩ ∧
        delete_post db uid id = .error ⟨403, "You are not the owner of the post"⟩) ∧
    (∀ post, db.posts.find? (fun p => p.id == id) = some post → post.owner_id = uid →
        ∃ db', update_post db uid id title content published =
            .ok (db', some (applyUpdate title content published post)) ∧
          db'.users = db.users ∧ db'.votes = db.votes ∧
          db'.posts = db.posts.map
            (fun p => if p.id == id then applyUpdate title content published p else p)) ∧
    (∀ post, db.posts.find? (fun p => p.id == id) = some post → post.owner_id = uid →
        ∃ db', delete_post db uid id = .ok (db', 204) ∧
          ∀ p : Post, p ∈ db'.posts ↔ p ∈ db.posts ∧ ¬p.id = id) := by
  refine ⟨?_, ?_, ?_, ?_⟩
  · intro h
    exact ⟨by simp [update_post, h], by simp [delete_post, h]⟩
  · intro post hP hne
    have hbne : (post.owner_id != uid) = true := by simp [bne_iff_ne, hne]
    exact ⟨by simp [update_post, hP, hbne], by simp [delete_post, hP, hbne]⟩
  · intro post hP hown
    have hbne : (post.owner_id != uid) = false := by simp [hown]
    have hid : post.id = id := by
      have := List.find?_some hP
      simpa using this
    refine ⟨{ db with posts := db.posts.map (fun p => if p.id == id then applyUpdate title content published p else p) },
      ?_, rfl, rfl, rfl⟩
    have hcomp : ((fun p : Post => p.id == id) ∘
        (fun p => if p.id == id then applyUpdate title content published p else p)) =
        (fun p : Post => p.id == id) := by
      funext x
      by_cases hx : x.id = id <;> simp [applyUpdate, hx]
    have hfind : (db.posts.map
        (fun p => if p.id == id then applyUpdate title content published p else p)).find?
          (fun p => p.id == id) = some (applyUpdate title content published post) := by
      rw [List.find?_map, hcomp, hP]
      simp [hid]
    simp only [update_post, hP, hbne, Bool.false_eq_true, if_false, hfind]
  · intro post hP hown
    have hbne : (post.owner_id != uid) = false := by simp [hown]
    refine ⟨{ db with posts := db.posts.filter (fun p => !(p.id == id)),
                      votes := db.votes.filter (fun v => !(v.post_id == id)) },
      ?_, ?_⟩
    · simp [delete_post, hP, hbne]
    · intro p
      simp [List.mem_filter]

/-- A concrete one-user, one-post, one-vote state used to instantiate the
hypotheses of the general theorems. -/
def dbW : DB :=
  { users := [{ id := 1, email := "a@example.com", password := "digest1", created_at := 0 }],
    posts := [{ id := 1, title := "abc", content := "cba", published := true,
                created_at := 0, owner_id := 1 }],
    votes := [{ user_id := 1, post_id := 1 }] }

/-- Claim C3: starting from a state whose votes table has at most one row per
(user id, post id) pair, every operation — cast/retract, post create, post
update, post delete, user create — yields a state that still has at most one
row per pair; the cast branch's pre-check (the `find?` guard) is what makes
the inserted row's key fresh. -/
theorem vote_unique_invariant (db : DB) (uid pid dir i now : Nat)
    (hash : String → String) (title content email password : String) (pub : Bool)
    (h : voteKeyUnique db.votes) :
    (∀ db' m, vote db uid ⟨pid, dir⟩ = .ok (db', m) → voteKeyUnique db'.votes) ∧
    voteKeyUnique (create_post db uid title content pub now).1.votes ∧
    (∀ db' r, update_post db uid i title content pub = .ok (db', r) →
        voteKeyUnique db'.votes) ∧
    (∀ db' c, delete_post db uid i = .ok (db', c) → voteKeyUnique db'.votes) ∧
    voteKeyUnique (create_user hash db email password now).1.votes := by
  refine ⟨?_, h, ?_, ?_, h⟩
  · intro db' m hok
    simp only [vote] at hok
    split at hok
    · simp at hok
    · split at hok
      · split at hok
        · simp at hok
        · rename_i hfound
          simp only [Except.ok.injEq, Prod.mk.injEq] at hok
          obtain ⟨h1, _⟩ := hok
          subst h1
          unfold voteKeyUnique
          rw [List.pairwise_append]
          refine ⟨h, List.pairwise_singleton _ _, ?_⟩
          intro a ha b hb
          simp only [List.mem_singleton] at hb
          subst hb
          have hnone : db.votes.find? (fun w => w.post_id == pid && w.user_id == uid)
              = none := by
            cases hf : db.votes.find? (fun w => w.post_id == pid && w.user_id == uid) with
            | none => rfl
            | some x => rw [hf] at hfound; simp at hfound
          rw [List.find?_eq_none] at hnone
          have := hnone a ha
          simp only [Bool.and_eq_true, beq_iff_eq, not_and] at this
          rintro ⟨hu, hp⟩
          exact this hp hu
      · split at hok
        · simp at hok
        · simp only [Except.ok.injEq, Prod.mk.injEq] at hok
          obtain ⟨h1, _⟩ := hok
          subst h1
          exact h.sublist (List.filter_sublist _)
  · intro db' r hok
    simp only [update_post] at hok
    split at hok
    · simp at hok
    · split at hok
      · simp at hok
      · simp only [Except.ok.injEq, Prod.mk.injEq] at hok
        obtain ⟨h1, _⟩ := hok
        subst h1
        exact h
  · intro db' c hok
    simp only [delete_post] at hok
    split at hok
    · simp at hok
    · split at hok
      · simp at hok
      · simp only [Except.ok.injEq, Prod.mk.injEq] at hok
        obtain ⟨h1, _⟩ := hok
        subst h1
        exact h.sublist (List.filter_sublist _)

/-- Claim C3, instantiated: the invariant is preserved from the concrete
state `dbW`. -/
theorem vote_unique_invariant_witness :
    (∀ db' m, vote dbW 1 ⟨1, 1⟩ = .ok (db', m) → voteKeyUnique db'.votes) ∧
    voteKeyUnique (create_post dbW 1 "t" "c" true 0).1.votes ∧
    (∀ db' r, update_post dbW 1 1 "t" "c" true = .ok (db', r) →
        voteKeyUnique db'.votes) ∧
    (∀ db' c, delete_post dbW 1 1 = .ok (db', c) → voteKeyUnique db'.votes) ∧
    voteKeyUnique (create_user (fun s => s) dbW "e@example.com" "pw" 0).1.votes :=
  vote_unique_invariant dbW 1 1 1 1 0 (fun s => s) "t" "c" "e@example.com" "pw" true
    (by simp [dbW, voteKeyUnique])

theorem verify_error_eq (secretKey : String) (token : JWT) (exc : HTTPException)
    (now : Nat) (e : HTTPException)
    (h : verify_access_token secretKey token exc now = .error e) : e = exc := by
  simp only [verify_access_token] at h
  split at h
  · simp only [Except.error.injEq] at h
    exact h.symm
  · split at h
    · simp only [Except.error.injEq] at h
      exact h.symm
    · simp at h

/-- Claim C4: a token issued for subject s at instant t0 with the configured
TTL verifies successfully, returning s, at every instant strictly before
t0 + TTL, and fails with the credentials exception at every instant strictly
after t0 + TTL; a token signed with a key other than the server's, or a
malformed token, always fails with the credentials exception. -/
theorem token_roundtrip_spec (secretKey : String) (ttl s t0 t : Nat)
    (exc : HTTPException) :
    (t < t0 + ttl →
        verify_access_token secretKey (create_access_token secretKey ttl s t0) exc t
          = .ok { id := some s }) ∧
    (t0 + ttl < t →
        verify_access_token secretKey (create_access_token secretKey ttl s t0) exc t
          = .error exc) ∧
    (∀ key uid e, key ≠ secretKey →
        verify_access_token secretKey (JWT.signed uid e key) exc t = .error exc) ∧
    (∀ raw, verify_access_token secretKey (JWT.malformed raw) exc t = .error exc) := by
  refine ⟨?_, ?_, ?_, ?_⟩
  · intro hlt
    have hnot : ¬(t0 + ttl < t) := by omega
    simp [verify_access_token, create_access_token, jwtEncode, jwtDecode, hnot]
  · intro hgt
    simp [verify_access_token, create_access_token, jwtEncode, jwtDecode, hgt]
  · intro key uid e hne
    have hk : (key == secretKey) = false := by simp [hne]
    simp [verify_access_token, jwtDecode, hk]
  · intro raw
    simp [verify_access_token, jwtDecode]

/-- Claim C5: identity resolution fails with the one credentials exception
(status 401, message "Could not validate credentials") both when the token
fails verification and when the token verifies but its subject id matches no
stored user; moreover every failure of `get_current_user` is that exact
exception, so a response observer cannot tell a bad token from a deleted
user. -/
theorem credential_failure_indistinguishable (secretKey : String) (db : DB)
    (token : JWT) (now : Nat) :
    ((∃ e, verify_access_token secretKey token credentialsException now = .error e) →
        get_current_user secretKey db token now = .error credentialsException) ∧
    (∀ td, verify_access_token secretKey token credentialsException now = .ok td →
        db.users.find? (fun u => some u.id == td.id) = none →
        get_current_user secretKey db token now = .error credentialsException) ∧
    (∀ e, get_current_user secretKey db token now = .error e →
        e = credentialsException) := by
  refine ⟨?_, ?_, ?_⟩
  · rintro ⟨e, he⟩
    have := verify_error_eq secretKey token credentialsException now e he
    subst this
    simp [get_current_user, he]
  · intro td hok hfind
    simp [get_current_user, hok, hfind]
  · intro e h
    simp only [get_current_user] at h
    split at h
    · rename_i e0 hv
      simp only [Except.error.injEq] at h
      rw [← h]
      exact verify_error_eq secretKey token credentialsException now e0 hv
    · split at h
      · simp only [Except.error.injEq] at h
        exact h.symm
      · simp at h

theorem isPrefixOf_iff_append (l1 l2 : List Char) :
    l1.isPrefixOf l2 = true ↔ ∃ t, l1 ++ t = l2 := by
  induction l1 generalizing l2 with
  | nil => simp [List.isPrefixOf]
  | cons a as ih =>
      cases l2 with
      | nil => simp [List.isPrefixOf]
      | cons b bs =>
          simp only [List.isPrefixOf, Bool.and_eq_true, beq_iff_eq, ih,
            List.cons_append, List.cons.injEq]
          constructor
          · rintro ⟨hab, t, ht⟩
            exact ⟨t, hab, ht⟩
          · rintro ⟨t, hab, ht⟩
            exact ⟨hab, t, ht⟩

theorem containsRun_iff (needle hay : List Char) :
    containsRun needle hay = true ↔ ∃ pre suf, pre ++ needle ++ suf = hay := by
  induction hay with
  | nil =>
      simp only [containsRun, List.isEmpty_iff]
      constructor
      · rintro rfl
        exact ⟨[], [], rfl⟩
      · rintro ⟨pre, suf, h⟩
        rcases List.append_eq_nil.mp h with ⟨h1, h2⟩
        exact (List.append_eq_nil.mp h1).2
  | cons c rest ih =>
      simp only [containsRun, Bool.or_eq_true, isPrefixOf_iff_append, ih]
      constructor
      · rintro (⟨t, ht⟩ | ⟨pre, suf, h⟩)
        · exact ⟨[], t, by simpa using ht⟩
        · exact ⟨c :: pre, suf, by simp [← h]⟩
      · rintro ⟨pre, suf, h⟩
        cases pre with
        | nil => exact Or.inl ⟨suf, by simpa using h⟩
        | cons d dpre =>
            right
            refine ⟨dpre, suf, ?_⟩
            have h2 : d = c ∧ dpre ++ needle ++ suf = rest := by
              simpa [List.cons_append, List.cons.injEq] using h
            exact h2.2

theorem likeMatch_wild (ps text : List Char) :
    likeMatch ('%' :: ps) text = true ↔
      ∃ pre suf, pre ++ suf = text ∧ likeMatch ps suf = true := by
  simp only [likeMatch, if_pos (show (('%' : Char) == '%') = true from rfl),
    List.any_eq_true, List.mem_tails]
  constructor
  · rintro ⟨suf, ⟨pre, hps⟩, hm⟩
    exact ⟨pre, suf, hps, hm⟩
  · rintro ⟨pre, suf, hps, hm⟩
    exact ⟨suf, ⟨pre, hps⟩, hm⟩

theorem likeMatch_wild_nil (t : List Char) : likeMatch ['%'] t = true :=
  (likeMatch_wild [] t).mpr ⟨t, [], by simp, rfl⟩

theorem likeMatch_literal (l : List Char) (ps text : List Char)
    (h1 : '%' ∉ l) (h2 : '_' ∉ l) :
    likeMatch (l ++ ps) text = true ↔
      ∃ t2, text = l ++ t2 ∧ likeMatch ps t2 = true := by
  induction l generalizing text with
  | nil => simp
  | cons c l2 ih =>
      have hc1 : (c == '%') = false := by
        simp only [beq_eq_false_iff_ne, ne_eq]
        intro hc
        exact h1 (hc ▸ List.mem_cons_self c l2)
      have hc2 : (c == '_') = false := by
        simp only [beq_eq_false_iff_ne, ne_eq]
        intro hc
        exact h2 (hc ▸ List.mem_cons_self c l2)
      have h1' : '%' ∉ l2 := fun h => h1 (List.mem_cons_of_mem c h)
      have h2' : '_' ∉ l2 := fun h => h2 (List.mem_cons_of_mem c h)
      cases text with
      | nil => simp [likeMatch, hc1]
      | cons d ts =>
          simp only [List.cons_append, likeMatch, hc1, Bool.false_eq_true, if_false,
            hc2, Bool.and_eq_true, beq_iff_eq, List.append_eq, ih ts h1' h2',
            List.cons.injEq]
          constructor
          · rintro ⟨hcd, t2, hts, hm⟩
            exact ⟨t2, ⟨hcd.symm, hts⟩, hm⟩
          · rintro ⟨t2, ⟨hdc, hts⟩, hm⟩
            exact ⟨hdc.symm, t2, hts, hm⟩

theorem titleContains_iff_substring (t sub : String)
    (h1 : '%' ∉ sub.data) (h2 : '_' ∉ sub.data) :
    titleContains t sub = true ↔ ∃ pre suf, pre ++ sub.data ++ suf = t.data := by
  rw [titleContains, likeMatch_wild]
  constructor
  · rintro ⟨pre, suf0, hsplit, hm⟩
    rw [likeMatch_literal sub.data ['%'] suf0 h1 h2] at hm
    obtain ⟨t2, ht2, _⟩ := hm
    refine ⟨pre, t2, ?_⟩
    rw [List.append_assoc, ← ht2]
    exact hsplit
  · rintro ⟨pre, suf, hsplit⟩
    refine ⟨pre, sub.data ++ suf, ?_, ?_⟩
    · rw [← List.append_assoc]
      exact hsplit
    · rw [likeMatch_literal sub.data ['%'] _ h1 h2]
      exact ⟨suf, rfl, likeMatch_wild_nil suf⟩

theorem titleContains_empty (t : String) : titleContains t "" = true :=
  (titleContains_iff_substring t "" (by decide) (by decide)).mpr
    ⟨[], t.data, by simp [show "".data = ([] : List Char) from rfl]⟩

/-- Claim C6, corrected: the title filter generated by
`Post.title.contains(search)` is SQL `LIKE` matching against the pattern
`%search%` with no autoescape, not literal substring containment — a search
holding the wildcard `%` or `_` matches titles that do not contain it.  At
the concrete state `dbW`, the search `"%"` returns the post titled `"abc"`
although `"abc"` does not contain `"%"` as a substring. -/
theorem get_posts_wildcard_counterexample :
    get_posts dbW 10 0 "%" = [(⟨1, "abc", "cba", true, 0, 1⟩, 1)] ∧
    ¬ ∃ pre suf, pre ++ "%".data ++ suf = "abc".data := by
  refine ⟨rfl, ?_⟩
  intro h
  exact absurd ((containsRun_iff "%".data "abc".data).mpr h) (by decide)

/-- Claim C6, amended (title matching is SQL `LIKE %search%`, which is
literal substring containment exactly for wildcard-free searches): the
list-posts result is the full matching sequence with its first `skip`
elements dropped and then at most `limit` elements taken; it is ordered by
ascending post id and each returned pair is a post of the store whose title
matches the search together with exactly the number of vote rows
referencing it; the full sequence (skip 0, limit the number of matching
posts) holds precisely the matching posts, each with its exact count — a
post with no votes appears with count 0; for a search without `%` and `_`
the filter is literal substring containment; the empty search — the
declared default together with limit 10 and skip 0 — matches every
title. -/
theorem get_posts_spec (db : DB) (limit skip : Nat) (search : String) :
    get_posts db limit skip search =
      ((get_posts db (db.posts.filter (fun p => titleContains p.title search)).length
          0 search).drop skip).take limit ∧
    (get_posts db limit skip search).length ≤ limit ∧
    List.Pairwise (fun x y : Post × Nat => x.1.id ≤ y.1.id)
      (get_posts db limit skip search) ∧
    (∀ x, x ∈ get_posts db limit skip search →
        x.1 ∈ db.posts ∧ titleContains x.1.title search = true ∧
        x.2 = voteCount db.votes x.1.id) ∧
    (∀ x : Post × Nat,
        x ∈ get_posts db (db.posts.filter (fun p => titleContains p.title search)).length
            0 search ↔
          x.1 ∈ db.posts ∧ titleContains x.1.title search = true ∧
          x.2 = voteCount db.votes x.1.id) ∧
    (∀ t sub : String, '%' ∉ sub.data → '_' ∉ sub.data →
        (titleContains t sub = true ↔ ∃ pre suf, pre ++ sub.data ++ suf = t.data)) ∧
    (∀ t : String, titleContains t "" = true) ∧
    get_posts_default db = get_posts db 10 0 "" := by
  have hfull : get_posts db
      (db.posts.filter (fun p => titleContains p.title search)).length 0 search =
      (List.insertionSort postLe
        (db.posts.filter (fun p => titleContains p.title search))).map
          (fun p => (p, voteCount db.votes p.id)) := by
    rw [get_posts, List.drop_zero, List.take_of_length_le]
    exact le_of_eq (List.perm_insertionSort postLe _).length_eq
  refine ⟨?_, ?_, ?_, ?_, ?_,
    fun t sub h1 h2 => titleContains_iff_substring t sub h1 h2,
    titleContains_empty, rfl⟩
  · rw [hfull, ← List.map_drop, ← List.map_take]
    rfl
  · rw [get_posts, List.length_map]
    exact List.length_take_le _ _
  · have hs : List.Sorted postLe
        (List.insertionSort postLe
          (db.posts.filter (fun p => titleContains p.title search))) :=
      List.sorted_insertionSort postLe _
    have h1 : List.Pairwise postLe
        (((List.insertionSort postLe
            (db.posts.filter (fun p => titleContains p.title search))).drop
              skip).take limit) :=
      hs.sublist ((List.take_sublist _ _).trans (List.drop_sublist _ _))
    rw [get_posts, List.pairwise_map]
    exact h1
  · intro x hx
    rw [get_posts] at hx
    obtain ⟨p, hp, rfl⟩ := List.mem_map.mp hx
    have hmem : p ∈ List.insertionSort postLe
        (db.posts.filter (fun q => titleContains q.title search)) :=
      ((List.take_sublist _ _).trans (List.drop_sublist _ _)).mem hp
    have hfil : p ∈ db.posts.filter (fun q => titleContains q.title search) :=
      (List.perm_insertionSort postLe _).mem_iff.mp hmem
    obtain ⟨hin, hpred⟩ := List.mem_filter.mp hfil
    exact ⟨hin, hpred, rfl⟩
  · intro x
    rw [hfull]
    constructor
    · intro hx
      obtain ⟨p, hp, hxp⟩ := List.mem_map.mp hx
      have hfil : p ∈ db.posts.filter (fun q => titleContains q.title search) :=
        (List.perm_insertionSort postLe _).mem_iff.mp hp
      obtain ⟨hin, hpred⟩ := List.mem_filter.mp hfil
      rw [← hxp]
      exact ⟨hin, hpred, rfl⟩
    · rintro ⟨hin, hpred, hcnt⟩
      refine List.mem_map.mpr ⟨x.1, ?_, ?_⟩
      · exact (List.perm_insertionSort postLe _).mem_iff.mpr
          (List.mem_filter.mpr ⟨hin, hpred⟩)
      · rw [Prod.ext_iff]
        exact ⟨rfl, hcnt.symm⟩

/-- Claim C7: the public user representation contains only id, email and
creation timestamp, never the password digest: replacing a stored digest
changes no `get_user` response, the `UserOut` projection is invariant under
any change of the password field, and the register response is identical
across states that differ in a digest — indeed across different submitted
passwords and different hash functions. -/
theorem user_response_no_digest (db : DB) (uid i : Nat) (pw : String)
    (hash1 hash2 : String → String) (email pw1 pw2 : String) (now : Nat) :
    get_user (setPassword db uid pw) i = get_user db i ∧
    (∀ u : User, userOut { u with password := pw } = userOut u) ∧
    (create_user hash1 (setPassword db uid pw) email pw1 now).2 =
      (create_user hash2 db email pw2 now).2 := by
  have hid : ((fun u : User => u.id == i) ∘
      (fun u : User => if u.id == uid then { u with password := pw } else u)) =
      (fun u : User => u.id == i) := by
    funext u
    by_cases h : u.id = uid <;> simp [h]
  have hidc : (User.id ∘
      (fun u : User => if u.id == uid then { u with password := pw } else u)) =
      User.id := by
    funext u
    by_cases h : u.id = uid <;> simp [h]
  refine ⟨?_, fun u => rfl, ?_⟩
  · simp only [get_user, setPassword]
    rw [List.find?_map, hid]
    cases hf : db.users.find? (fun u => u.id == i) with
    | none => simp [hf]
    | some u =>
        simp only [hf, Option.map_some']
        by_cases h : u.id = uid <;> simp [userOut, h]
  · simp only [create_user, setPassword, List.map_map, hidc]
    rfl

theorem le_foldr_max (a : Nat) (l : List Nat) (h : a ∈ l) : a ≤ l.foldr max 0 := by
  induction l with
  | nil => cases h
  | cons b t ih =>
      rcases List.mem_cons.mp h with rfl | h2
      · exact Nat.le_max_left _ _
      · exact Nat.le_trans (ih h2) (Nat.le_max_right _ _)

theorem nextId_not_mem (ids : List Nat) : nextId ids ∉ ids := by
  intro hmem
  have h2 := le_foldr_max _ _ hmem
  simp only [nextId] at h2
  omega

/-- Claim C8: in a state satisfying the store's foreign-key constraint on
votes, creating a post and immediately getting it by the returned id
succeeds and reports a vote count of 0. -/
theorem create_then_get_zero (db : DB) (uid : Nat) (title content : String)
    (pub : Bool) (now : Nat) (h : votesFK db) :
    get_post (create_post db uid title content pub now).1
        (create_post db uid title content pub now).2.id =
      .ok ((create_post db uid title content pub now).2, 0) := by
  have hnone : db.posts.find? (fun q => q.id == nextId (db.posts.map Post.id)) = none := by
    rw [List.find?_eq_none]
    intro q hq
    simp only [beq_iff_eq]
    intro he
    exact nextId_not_mem _ (he ▸ List.mem_map_of_mem Post.id hq)
  have hcount : voteCount db.votes (nextId (db.posts.map Post.id)) = 0 := by
    rw [voteCount, List.length_eq_zero, List.filter_eq_nil_iff]
    intro v hv
    simp only [beq_iff_eq]
    intro he
    exact nextId_not_mem _ (he ▸ h v hv)
  simp [get_post, create_post, List.find?_append, hnone, hcount]

/-- Claim C8, instantiated at the concrete state `dbW`. -/
theorem create_then_get_zero_witness :
    votesFK dbW ∧
    get_post (create_post dbW 1 "t" "c" true 5).1
        (create_post dbW 1 "t" "c" true 5).2.id =
      .ok ((create_post dbW 1 "t" "c" true 5).2, 0) :=
  ⟨by simp [votesFK, dbW], create_then_get_zero dbW 1 "t" "c" true 5 (by simp [votesFK, dbW])⟩

/-- Claim C9: a successful update changes only the title, content and
published fields of the rows matching the id: positionally, every row keeps
its id, owner_id and created_at, rows with a different id are untouched, and
the matching row becomes exactly its three-field replacement; the users and
votes tables are untouched.  No other operation reassigns an owner either:
a vote leaves the posts table unchanged, create only appends (every existing
row survives as is), and delete only removes rows. -/
theorem update_frame_spec (db : DB) (uid id now i : Nat) (title content : String)
    (pub : Bool) (w : VoteIn) :
    (∀ db' r, update_post db uid id title content pub = .ok (db', r) →
        db'.users = db.users ∧ db'.votes = db.votes ∧
        db'.posts.length = db.posts.length ∧
        ∀ n (hn : n < db.posts.length) (hn2 : n < db'.posts.length),
          (db'.posts.get ⟨n, hn2⟩).id = (db.posts.get ⟨n, hn⟩).id ∧
          (db'.posts.get ⟨n, hn2⟩).owner_id = (db.posts.get ⟨n, hn⟩).owner_id ∧
          (db'.posts.get ⟨n, hn2⟩).created_at = (db.posts.get ⟨n, hn⟩).created_at ∧
          ((db.posts.get ⟨n, hn⟩).id ≠ id →
              db'.posts.get ⟨n, hn2⟩ = db.posts.get ⟨n, hn⟩) ∧
          ((db.posts.get ⟨n, hn⟩).id = id →
              db'.posts.get ⟨n, hn2⟩ =
                applyUpdate title content pub (db.posts.get ⟨n, hn⟩))) ∧
    (∀ db' m, vote db uid w = .ok (db', m) → db'.posts = db.posts) ∧
    (∀ p, p ∈ db.posts → p ∈ (create_post db uid title content pub now).1.posts) ∧
    (∀ db' c, delete_post db uid i = .ok (db', c) → ∀ p, p ∈ db'.posts → p ∈ db.posts) := by
  refine ⟨?_, ?_, ?_, ?_⟩
  · intro db' r hok
    simp only [update_post] at hok
    split at hok
    · simp at hok
    · split at hok
      · simp at hok
      · simp only [Except.ok.injEq, Prod.mk.injEq] at hok
        obtain ⟨h1, _⟩ := hok
        subst h1
        refine ⟨rfl, rfl, by simp, ?_⟩
        intro n hn hn2
        simp only [List.get_eq_getElem, List.getElem_map]
        by_cases hq : db.posts[n].id = id
        · simp [applyUpdate, hq]
        · simp [applyUpdate, hq]
  · intro db' m hok
    simp only [vote] at hok
    split at hok
    · simp at hok
    · split at hok
      · split at hok
        · simp at hok
        · simp only [Except.ok.injEq, Prod.mk.injEq] at hok
          obtain ⟨h1, _⟩ := hok
          subst h1
          rfl
      · split at hok
        · simp at hok
        · simp only [Except.ok.injEq, Prod.mk.injEq] at hok
          obtain ⟨h1, _⟩ := hok
          subst h1
          rfl
  · intro p hp
    simp only [create_post]
    exact List.mem_append_left _ hp
  · intro db' c hok
    simp only [delete_post] at hok
    split at hok
    · simp at hok
    · split at hok
      · simp at hok
      · simp only [Except.ok.injEq, Prod.mk.injEq] at hok
        obtain ⟨h1, _⟩ := hok
        subst h1
        intro p hp
        exact (List.mem_filter.mp hp).1

theorem orderedInsert_map_id (f : Post → Post) (hf : ∀ p, (f p).id = p.id)
    (a : Post) (l : List Post) :
    List.orderedInsert postLe (f a) (l.map f) = (List.orderedInsert postLe a l).map f := by
  induction l with
  | nil => rfl
  | cons c t ih =>
      simp only [List.map_cons, List.orderedInsert]
      by_cases h : postLe a c
      · rw [if_pos h, if_pos (show postLe (f a) (f c) by simpa [postLe, hf] using h)]
        simp
      · rw [if_neg h, if_neg (show ¬postLe (f a) (f c) by simpa [postLe, hf] using h)]
        simp only [List.map_cons, ih]

theorem insertionSort_map_id (f : Post → Post) (hf : ∀ p, (f p).id = p.id)
    (l : List Post) :
    List.insertionSort postLe (l.map f) = (List.insertionSort postLe l).map f := by
  induction l with
  | nil => rfl
  | cons a t ih =>
      simp only [List.map_cons, List.insertionSort, ih]
      exact orderedInsert_map_id f hf a _

/-- Claim C10: the published flag has no effect on reads.  Flipping any
post's published flag changes neither which rows the list result contains
(same ids, titles, contents, owners, creation times and vote counts, in the
same order) nor the get-by-id outcome (same success/failure and same data up
to the flag itself): neither read filters on `published`. -/
theorem published_no_read_effect (db : DB) (pid : Nat) (b : Bool)
    (limit skip i : Nat) (search : String) :
    (get_posts (setPublished db pid b) limit skip search).map
        (fun x => (eraseFlag x.1, x.2)) =
      (get_posts db limit skip search).map (fun x => (eraseFlag x.1, x.2)) ∧
    Except.map (fun x : Post × Nat => (eraseFlag x.1, x.2))
        (get_post (setPublished db pid b) i) =
      Except.map (fun x : Post × Nat => (eraseFlag x.1, x.2)) (get_post db i) := by
  have hfid : ∀ p : Post,
      ((if p.id == pid then { p with published := b } else p) : Post).id = p.id := by
    intro p
    by_cases h : p.id = pid <;> simp [h]
  have hft : ∀ p : Post,
      ((if p.id == pid then { p with published := b } else p) : Post).title
        = p.title := by
    intro p
    by_cases h : p.id = pid <;> simp [h]
  have hfe : ∀ p : Post,
      eraseFlag (if p.id == pid then { p with published := b } else p)
        = eraseFlag p := by
    intro p
    by_cases h : p.id = pid <;> simp [eraseFlag, h]
  constructor
  · have hpred : ((fun p : Post => titleContains p.title search) ∘
        (fun p : Post => if p.id == pid then { p with published := b } else p)) =
        (fun p : Post => titleContains p.title search) := by
      funext p
      by_cases h : p.id = pid <;> simp [Function.comp, h]
    simp only [get_posts, setPublished]
    rw [List.filter_map, hpred, insertionSort_map_id _ hfid,
      ← List.map_drop, ← List.map_take, List.map_map, List.map_map, List.map_map]
    apply List.map_congr_left
    intro q hq
    by_cases h : q.id = pid <;> simp [Function.comp, eraseFlag, h]
  · have hpredi : ((fun p : Post => p.id == i) ∘
        (fun p : Post => if p.id == pid then { p with published := b } else p)) =
        (fun p : Post => p.id == i) := by
      funext p
      by_cases h : p.id = pid <;> simp [Function.comp, h]
    simp only [get_post, setPublished]
    rw [List.find?_map, hpredi]
    cases hf : db.posts.find? (fun p => p.id == i) with
    | none => simp
    | some q => by_cases h : q.id = pid <;> simp [Except.map, eraseFlag, h]

/-! ### Concrete evaluations: each branch of the operations is reachable -/

theorem vote_missing_post_concrete :
    vote dbW 1 ⟨2, 1⟩ = .error ⟨404, "Post with id 2 does not exist"⟩ := rfl

theorem vote_duplicate_concrete :
    vote dbW 1 ⟨1, 1⟩ = .error ⟨409, "user 1 has already voted on post 1"⟩ := rfl

theorem vote_retract_concrete :
    vote dbW 1 ⟨1, 0⟩ = .ok ({ dbW with votes := [] }, "successfully deleted vote") := rfl

theorem vote_cast_concrete :
    vote dbW 2 ⟨1, 1⟩ =
      .ok ({ dbW with votes := [⟨1, 1⟩, ⟨2, 1⟩] }, "successfully added vote") := rfl

theorem vote_retract_missing_concrete :
    vote dbW 2 ⟨1, 0⟩ = .error ⟨404, "vote does not exist"⟩ := rfl

theorem update_forbidden_concrete :
    update_post dbW 2 1 "x" "y" true =
      .error ⟨403, "You are not the owner of the post"⟩ := rfl

theorem update_owner_concrete :
    update_post dbW 1 1 "x" "y" false =
      .ok ({ dbW with posts := [⟨1, "x", "y", false, 0, 1⟩] },
        some ⟨1, "x", "y", false, 0, 1⟩) := rfl

theorem delete_missing_concrete :
    delete_post dbW 1 9 = .error ⟨404, "Post with 9 was not found"⟩ := rfl

theorem delete_owner_concrete :
    delete_post dbW 1 1 = .ok ({ dbW with posts := [], votes := [] }, 204) := rfl

theorem get_posts_default_concrete :
    get_posts_default dbW = [(⟨1, "abc", "cba", true, 0, 1⟩, 1)] := rfl

theorem get_posts_search_miss_concrete :
    get_posts dbW 10 0 "zzz" = [] := rfl

theorem token_valid_concrete :
    verify_access_token "k" (create_access_token "k" 30 7 100) credentialsException 129
      = .ok { id := some 7 } := rfl

theorem token_expired_concrete :
    verify_access_token "k" (create_access_token "k" 30 7 100) credentialsException 131
      = .error credentialsException := rfl

theorem deleted_user_concrete :
    get_current_user "k" { dbW with users := [] } (create_access_token "k" 30 1 0) 0
      = .error credentialsException := rfl

end App
